import Mathlib

set_option autoImplicit false
set_option linter.unnecessarySeqFocus false

/-!
Verification of the AuraFlow daemon lifecycle supervisor
(`src/python/daemon_manager.py`, `src/python/control.py`) against its
natural-language specification.

The Python code is shallowly embedded: filesystem and process-table state is
made explicit in a `World` record, OS errors that the Python code catches are
modelled by the corresponding `Option`/branching structure, and real-time
polling loops are modelled by counting fixed 50 ms poll ticks.
-/

namespace AuraFlow

/-! ## Python `int()` parsing of the identity file

`read_pid` does `int(PID_PATH.read_text().strip())`.  We model CPython's
`str.strip` (ASCII whitespace) and `int` on decimal literals with an optional
sign and single underscores between digits; exotic unicode digits are outside
the model.  A parse failure (Python `ValueError`) is `none`. -/

def isPyWhitespace (c : Char) : Bool :=
  c = ' ' || c = '\t' || c = '\n' || c = '\r' || c = Char.ofNat 11 || c = Char.ofNat 12

def pyStrip (s : String) : List Char :=
  ((s.toList.dropWhile isPyWhitespace).reverse.dropWhile isPyWhitespace).reverse

def pyDigitsAux : List Char → Nat → Option Nat
  | [], acc => some acc
  | c :: cs, acc =>
    if c.isDigit then pyDigitsAux cs (10 * acc + (c.toNat - '0'.toNat))
    else if c = '_' then
      match cs with
      | c2 :: cs2 =>
        if c2.isDigit then pyDigitsAux cs2 (10 * acc + (c2.toNat - '0'.toNat)) else none
      | [] => none
    else none

def pyParseDigits : List Char → Option Nat
  | [] => none
  | c :: cs => if c.isDigit then pyDigitsAux cs (c.toNat - '0'.toNat) else none

def pyParseInt (s : String) : Option Int :=
  match pyStrip s with
  | '+' :: rest => (pyParseDigits rest).map (fun n => (n : Int))
  | '-' :: rest => (pyParseDigits rest).map (fun n => -(n : Int))
  | l => (pyParseDigits l).map (fun n => (n : Int))

/-! ## Launch signatures

`_launch_signature(config_path, video_path, playback_speed, volume)` returns
the tuple `(str(config_path.resolve()), video_path, float-or-None speed,
float-or-None volume, hash(config bytes)-or-None)`. -/

structure LaunchSig where
  configPath : String
  videoPath : Option String
  playbackSpeed : Option ℚ
  volume : Option ℚ
  configHash : Option Int
deriving DecidableEq, Repr

/-! ## The supervisor world

`Proc` is one entry of the host process table: whether the process is alive
and whether its command line matches the daemon script path (what
`pgrep -f <script>` selects).  `World` is the state visible to
`daemon_manager.py`: the process table, the identity (PID) file content
(`none` = absent), a flag for an I/O error while reading it, and the
module-global `_LAST_LAUNCH_SIGNATURE`. -/

structure Proc where
  alive : Bool
  matchesDaemon : Bool
deriving DecidableEq, Repr

abbrev ProcTable := List (Int × Proc)

structure World where
  procs : ProcTable
  pidFile : Option String
  pidReadErr : Bool
  lastSig : Option LaunchSig
deriving DecidableEq, Repr

/-- Process-table lookup (pids key the table). -/
def assocFind : ProcTable → Int → Option Proc
  | [], _ => none
  | e :: es, k => if e.1 = k then some e.2 else assocFind es k

/-- Liveness probe `os.kill(pid, 0)`: succeeds exactly when the pid names a
live process. -/
def aliveIn (t : ProcTable) (pid : Int) : Bool :=
  (assocFind t pid).elim false (fun p => p.alive)

/-- Does the pid name a live process whose command line matches the daemon
script (a member of `pgrep -f` output)? -/
def liveDaemonIn (t : ProcTable) (pid : Int) : Bool :=
  (assocFind t pid).elim false (fun p => p.alive && p.matchesDaemon)

def matchingIn (t : ProcTable) (pid : Int) : Bool :=
  (assocFind t pid).elim false (fun p => p.matchesDaemon)

/-- Delivering SIGKILL/confirmed death: the entry for `pid` becomes dead. -/
def killEntry (pid : Int) (e : Int × Proc) : Int × Proc :=
  if e.1 = pid then (e.1, { e.2 with alive := false }) else e

def setDeadT (t : ProcTable) (pid : Int) : ProcTable :=
  t.map (killEntry pid)

/-- Table-level outcome of `_terminate_pid(pid, timeout)`: if the initial
SIGTERM raises `OSError` (process already gone) the code returns with no
state change; otherwise the escalation (SIGTERM, poll, SIGKILL on timeout)
ends with the process dead.  The signal-level trace is modelled separately
below for the termination-sequencer claim. -/
def terminateT (t : ProcTable) (pid : Int) : ProcTable :=
  if aliveIn t pid then setDeadT t pid else t

def killAllT (t : ProcTable) (pids : List Int) : ProcTable :=
  pids.foldl terminateT t

/-- `_list_daemon_pids()`: the pids in the process table whose command line
matches the daemon script (`pgrep -f`); enumeration is modelled as
succeeding (a failing `pgrep` is an environment error outside the table
model). -/
def activePidsT (t : ProcTable) : List Int :=
  (t.map Prod.fst).filter (liveDaemonIn t)

/-- `read_pid()`: absent file, I/O error and non-numeric content all give
`none`. -/
def readPid (w : World) : Option Int :=
  match w.pidFile with
  | none => none
  | some s => if w.pidReadErr then none else pyParseInt s

/-- `load_pid()` from `control.py`: same absent/error/corrupt handling as
`read_pid` in `daemon_manager.py`. -/
def loadPid (w : World) : Option Int :=
  match w.pidFile with
  | none => none
  | some s => if w.pidReadErr then none else pyParseInt s

def pidFileB (w : World) : Bool := w.pidFile.isSome

/-- `daemon_running()`: the recorded pid exists and probes alive. -/
def daemonRunningB (w : World) : Bool :=
  (readPid w).elim false (aliveIn w.procs)

/-- `_cleanup_orphaned_daemons(keep)`: keep-set plus the recorded pid. -/
def keepSetOf (w : World) (keep : List Int) : List Int :=
  match readPid w with
  | some p => keep ++ [p]
  | none => keep

/-- The pids `_cleanup_orphaned_daemons` terminates: active daemon-matching
pids not in the keep-set. -/
def victimsOf (w : World) (keep : List Int) : List Int :=
  (activePidsT w.procs).filter (fun q => decide (¬ q ∈ keepSetOf w keep))

def cleanupOrphans (w : World) (keep : List Int) : World :=
  { w with procs := killAllT w.procs (victimsOf w keep) }

def terminatePidW (w : World) (pid : Int) : World :=
  { w with procs := terminateT w.procs pid }

/-- `stop_daemon(timeout)`: forget the launch signature, terminate the
recorded pid if any, unlink the identity file (`missing_ok=True`), sweep
orphans. -/
def stopDaemon (w : World) : World :=
  let w1 : World := { w with lastSig := none }
  let w2 : World :=
    match readPid w1 with
    | some p => terminatePidW w1 p
    | none => w1
  let w3 : World := { w2 with pidFile := none }
  cleanupOrphans w3 []

/-- `_launch_daemon`: spawn the daemon subprocess (its command line contains
the daemon script, so it matches the reaper's pattern) and return its fresh
pid. -/
def spawnDaemon (w : World) (pid : Int) : World :=
  { w with procs := w.procs ++ [(pid, { alive := true, matchesDaemon := true })] }

/-- `_write_pid(pid)`: the identity file now holds `str(pid)` (the write-trace
model for the atomicity claim is separate below). -/
def writePidFile (w : World) (pid : Int) : World :=
  { w with pidFile := some (toString pid), pidReadErr := false }

/-- The `state = Stopped` branch of `start_daemon`: launch, record pid,
remember the signature, await the pid (pure bounded wait, no state change),
sweep orphans keeping the fresh pid. -/
def launchBranch (w : World) (sig : LaunchSig) (fresh : Int) : World × Int :=
  let w1 := spawnDaemon w fresh
  let w2 := writePidFile w1 fresh
  let w3 : World := { w2 with lastSig := some sig }
  (cleanupOrphans w3 [fresh], fresh)

/-- `start_daemon` with explicit fuel for the `restart_daemon` recursion
(restart is `stop_daemon` then a full `start_daemon` with the same
arguments, hence the same signature, and the fresh pid the relaunch would
obtain).  Fuel `1` suffices on the idempotent path; fuel `2` on any path. -/
def startDaemonF : Nat → World → LaunchSig → Int → Option (World × Int)
  | 0, _, _, _ => none
  | fuel + 1, w, sig, fresh =>
    let w1 := cleanupOrphans w []
    if daemonRunningB w1 then
      if w1.lastSig = some sig ∧ pidFileB w1 = true then
        match readPid w1 with
        | some existing => some (w1, existing)
        | none => startDaemonF fuel (stopDaemon w1) sig fresh
      else startDaemonF fuel (stopDaemon w1) sig fresh
    else some (launchBranch w1 sig fresh)

/-! ## Concrete worlds exercising the lifecycle theorems -/

def sigEx : LaunchSig :=
  { configPath := "/tmp/config.json", videoPath := some "/tmp/a.mp4",
    playbackSpeed := some 1, volume := some 0, configHash := some 42 }

/-- A world with the daemon running as pid 5 (recorded and remembered) and a
stray daemon-matching process 7. -/
def wRun : World :=
  { procs := [(5, { alive := true, matchesDaemon := true }),
              (7, { alive := true, matchesDaemon := true })],
    pidFile := some "5", pidReadErr := false, lastSig := some sigEx }

/-- A world with a stale identity file: pid 9 is recorded but dead. -/
def wStale : World :=
  { procs := [(9, { alive := false, matchesDaemon := true })],
    pidFile := some "9", pidReadErr := false, lastSig := some sigEx }

/-- Two live daemon-matching processes, identity file recording pid 1. -/
def wTwo : World :=
  { procs := [(1, { alive := true, matchesDaemon := true }),
              (2, { alive := true, matchesDaemon := true })],
    pidFile := some "1", pidReadErr := false, lastSig := none }

/-- A world whose identity file holds non-numeric content. -/
def wCorrupt : World :=
  { procs := [], pidFile := some "garbage", pidReadErr := false, lastSig := none }

/-! ## The termination sequencer at signal level (`_terminate_pid`)

`_terminate_pid(pid, timeout)` sends SIGTERM (an `OSError` — process already
gone — is caught and the call returns), then polls `time.time() <
deadline` with `deadline = now + max(timeout, 0.2)`, probing `os.kill(pid,
0)` and sleeping 0.05 s per iteration, so it performs
`⌈max(timeout, 0.2) / 0.05⌉` probes; if a probe sees the process gone it
returns, otherwise after the deadline it sends SIGKILL (again catching a
possible `OSError`) and returns without further waiting.  `TermBehavior`
captures the target process: whether it is alive when SIGTERM is sent, and
after how many 50 ms poll ticks (if ever) a probe first sees it dead. -/

inductive PosixSignal
  | sigterm
  | sigkill
deriving DecidableEq, Repr

structure TermBehavior where
  aliveAtStart : Bool
  diesAfter : Option Nat
deriving DecidableEq, Repr

/-- Number of liveness probes before the deadline: one per 50 ms tick over a
budget of `max(timeout, 0.2)` seconds. -/
def pollsFor (timeout : ℚ) : Nat := Nat.ceil (max timeout (1/5) * 20)

def probeDead (b : TermBehavior) (k : Nat) : Bool :=
  match b.diesAfter with
  | some d => decide (d ≤ k)
  | none => false

def pollUntilDead (b : TermBehavior) : Nat → Nat → Bool
  | 0, _ => false
  | n + 1, k => if probeDead b k then true else pollUntilDead b n (k + 1)

/-- The signals `_terminate_pid` delivers, in order. -/
def terminatePidSignals (b : TermBehavior) (timeout : ℚ) : List PosixSignal :=
  if b.aliveAtStart = false then []
  else if pollUntilDead b (pollsFor timeout) 0 then [PosixSignal.sigterm]
  else [PosixSignal.sigterm, PosixSignal.sigkill]

/-- Modelled from the claim's words, for comparison with the code: the claim
says polling runs "until either the process disappears or the given timeout
elapses" — no 0.2 s floor on the budget. -/
def pollsForClaimed (timeout : ℚ) : Nat := Nat.ceil (timeout * 20)

/-- Modelled from the claim's words, for comparison with the code: the
termination sequencer the claim describes, which polls only until the given
timeout elapses and sends SIGKILL on that timeout. -/
def terminatePidSignalsClaimed (b : TermBehavior) (timeout : ℚ) : List PosixSignal :=
  if b.aliveAtStart = false then []
  else if pollUntilDead b (pollsForClaimed timeout) 0 then [PosixSignal.sigterm]
  else [PosixSignal.sigterm, PosixSignal.sigkill]

/-! ## Identity-file write trace (`_write_pid`)

`_write_pid(pid)` is `PID_PATH.write_text(str(pid))`: `Path.write_text`
opens the existing path with mode `"w"` — truncating it in place — and then
writes the string.  The observable contents of the identity file during the
call are therefore: the previous content, the truncated empty file, the new
record.  (Contrast `enable_autostart`, which writes to a temporary path and
renames.)  `none` models an absent file. -/

def writeTextStates (old : Option String) (data : String) : List (Option String) :=
  [old, some "", some data]

def writePidStates (old : Option String) (pid : Int) : List (Option String) :=
  writeTextStates old (toString pid)

/-- What `read_pid` obtains from an observable identity-file state. -/
def readPidContent (c : Option String) : Option Int := c.bind pyParseInt

/-! ## Configuration documents (`control.py`)

A parsed JSON config document is an association list of key/value pairs
(`json.load` yields a dict, so lookup takes the first entry with a key).
`load_config` returns `{**DEFAULT_CONFIG, **data}`: the default keys first,
overridden by `data` where present, then the remaining keys of `data` in
order — keys of `data` outside the defaults are kept. -/

inductive JVal
  | s (v : String)
  | num (v : ℚ)
  | b (v : Bool)
  | nullv
deriving DecidableEq, Repr

abbrev Doc := List (String × JVal)

def lookupD : Doc → String → Option JVal
  | [], _ => none
  | kv :: kvs, k => if kv.1 = k then some kv.2 else lookupD kvs k

def containsKey (d : Doc) (k : String) : Bool := (lookupD d k).isSome

/-- Python dict merge `{**d1, **d2}`. -/
def mergeDicts (d1 d2 : Doc) : Doc :=
  d1.map (fun kv => (kv.1, (lookupD d2 kv.1).getD kv.2))
    ++ d2.filter (fun kv => !(containsKey d1 kv.1))

/-- `DEFAULT_CONFIG` from `control.py`. -/
def defaultConfig : Doc :=
  [("video_path", JVal.s ""), ("playback_speed", JVal.num 1),
   ("volume", JVal.num 0), ("autostart", JVal.b false)]

/-- `load_config` on an existing stored document; when the file is absent
the defaults are first saved and then merged, yielding
`loadConfigMerge []` = the defaults. -/
def loadConfigMerge (data : Doc) : Doc := mergeDicts defaultConfig data

/-! ## The start command (`control.command_start`)

`command_start` loads the merged config; with a truthy `--video` override
(`if args.video:` — `None` and `""` both skip the branch) it first runs
`validate_video` (resolve, then require an existing regular file) and
records the validated path; with `--speed` it records the speed; it then
aborts if the configured `video_path` is falsy, and otherwise calls
`start_daemon` with the config's video path, speed and volume.  The
wallpaper side effect is external to the launch decision.  `Except.ok` =
the process launcher is invoked with the returned parameters. -/

structure CtlFs where
  resolvePath : String → String
  fileAt : String → Bool
  regularAt : String → Bool

structure StartArgs where
  video : Option String
  speed : Option ℚ

inductive CtlErr
  | fileNotFound (p : String)
  | notAFile (p : String)
  | noVideoConfigured
deriving DecidableEq, Repr

/-- `validate_video(path)`: `Path(path).expanduser().resolve()`, then
`FileNotFoundError` if nothing exists there, `ValueError` if it is not a
regular file. -/
def validateVideo (fs : CtlFs) (p : String) : Except CtlErr String :=
  let rp := fs.resolvePath p
  if fs.fileAt rp = false then Except.error (CtlErr.fileNotFound rp)
  else if fs.regularAt rp = false then Except.error (CtlErr.notAFile rp)
  else Except.ok rp

/-- Python falsiness of the `video_path` config value
(`if not config["video_path"]`). -/
def isFalsy : JVal → Bool
  | JVal.s v => decide (v = "")
  | JVal.num q => decide (q = 0)
  | JVal.b bv => !bv
  | JVal.nullv => true

structure LaunchRequest where
  videoPath : JVal
  playbackSpeed : JVal
  volume : JVal
deriving DecidableEq, Repr

/-- Python `dict.update`/`update_config` with one key: replace the value in
place if the key exists, else append the pair. -/
def setKey (d : Doc) (k : String) (v : JVal) : Doc :=
  if containsKey d k then d.map (fun kv => if kv.1 = k then (k, v) else kv)
  else d ++ [(k, v)]

def commandStart (fs : CtlFs) (stored : Doc) (args : StartArgs) :
    Except CtlErr LaunchRequest :=
  let cfg0 := loadConfigMerge stored
  let step1 : Except CtlErr Doc :=
    match args.video with
    | some v =>
      if v = "" then Except.ok cfg0
      else
        match validateVideo fs v with
        | Except.error e => Except.error e
        | Except.ok vp => Except.ok (setKey cfg0 "video_path" (JVal.s vp))
    | none => Except.ok cfg0
  match step1 with
  | Except.error e => Except.error e
  | Except.ok cfg1 =>
    let cfg2 : Doc :=
      match args.speed with
      | some sp => setKey cfg1 "playback_speed" (JVal.num sp)
      | none => cfg1
    let vp := (lookupD cfg2 "video_path").getD JVal.nullv
    if isFalsy vp then Except.error CtlErr.noVideoConfigured
    else Except.ok
      { videoPath := vp,
        playbackSpeed := (lookupD cfg2 "playback_speed").getD JVal.nullv,
        volume := (lookupD cfg2 "volume").getD (JVal.num 0) }

/-- A filesystem with no files at all, and a stored config pointing at a
vanished video. -/
def fsEmpty : CtlFs :=
  { resolvePath := fun s => s, fileAt := fun _ => false, regularAt := fun _ => false }

/-- A filesystem holding exactly one regular file, `/a.mp4`. -/
def fsOne : CtlFs :=
  { resolvePath := fun s => s,
    fileAt := fun s => decide (s = "/a.mp4"),
    regularAt := fun s => decide (s = "/a.mp4") }

/-! ## Autostart registrar (`enable_autostart`)

`enable_autostart(config_path)` builds the LaunchAgent property list, dumps
it to `AGENT_PLIST_PATH.with_suffix(".plist.tmp")` — during which the
target path still holds its previous content — then `Path.replace`s the
temp file onto the target (an atomic rename), then runs
`launchctl unload <path>` with `ignore_errors=True` and
`launchctl load -w <path>` with errors surfaced.  `DmEnv` carries the
module-level constants (`_python_executable()`, `_daemon_script()`,
`LOG_PATH`, `APP_ID`); `CmdResult` is a completed `subprocess.run`. -/

structure DmEnv where
  pythonExe : String
  daemonScript : String
  logPath : String
  appId : String

/-- `_build_launch_agent_plist(config_path)`. -/
structure LaunchAgentPlist where
  label : String
  programArguments : List String
  runAtLoad : Bool
  keepAlive : Bool
  standardOutPath : String
  standardErrPath : String
deriving DecidableEq, Repr

def buildLaunchAgentPlist (env : DmEnv) (configPath : String) : LaunchAgentPlist :=
  { label := env.appId,
    programArguments :=
      [env.pythonExe, env.daemonScript, "--config", configPath, "run"],
    runAtLoad := true,
    keepAlive := false,
    standardOutPath := env.logPath,
    standardErrPath := env.logPath }

structure CmdResult where
  returncode : Int
  stdoutText : String
  stderrText : String

/-- The error message `_launchctl` raises: `stderr.strip() or stdout.strip()
or "unknown error"`. -/
def launchctlMessage (res : CmdResult) : String :=
  if res.stderrText.trim ≠ "" then res.stderrText.trim
  else if res.stdoutText.trim ≠ "" then res.stdoutText.trim
  else "unknown error"

/-- `_launchctl(args, ignore_errors)`: `Except.ok b` = returned `b`,
`Except.error m` = raised `RuntimeError(m)`. -/
def launchctlRun (res : CmdResult) (ignoreErrors : Bool) : Except String Bool :=
  if res.returncode ≠ 0 then
    if ignoreErrors then Except.ok false
    else Except.error (launchctlMessage res)
  else Except.ok true

structure EnableOutcome where
  targetStates : List (Option LaunchAgentPlist)
  calls : List (List String × Bool)
  result : Except String Unit

/-- `enable_autostart`: `targetStates` lists the target descriptor path's
observable contents — before the call, while the temp file is being
written, and after the rename; `calls` lists the `launchctl`
invocations with their `ignore_errors` flag; `result` is the raised error,
if any (filesystem operations are modelled as succeeding). -/
def enableAutostart (env : DmEnv) (configPath : String) (agentPlistPath : String)
    (oldTarget : Option LaunchAgentPlist) (unloadRes loadRes : CmdResult) :
    EnableOutcome :=
  let plist := buildLaunchAgentPlist env configPath
  let states := [oldTarget, oldTarget, some plist]
  match launchctlRun unloadRes true with
  | Except.error e =>
    { targetStates := states, calls := [(["unload", agentPlistPath], true)],
      result := Except.error e }
  | Except.ok _ =>
    let calls := [(["unload", agentPlistPath], true),
                  (["load", "-w", agentPlistPath], false)]
    match launchctlRun loadRes false with
    | Except.error e =>
      { targetStates := states, calls := calls, result := Except.error e }
    | Except.ok _ =>
      { targetStates := states, calls := calls, result := Except.ok () }

/-! ## Launch-signature determinism (`_launch_signature`)

`hashFn` is the process's `hash` on byte strings (fixed for the lifetime of
one control process — CPython randomizes it only across processes), and
`CfgFs` gives the filesystem view used by `Path.resolve` and
`Path.read_bytes` (the latter raising `OSError` = `Except.error`). -/

structure CfgFs where
  resolveTo : String → String
  readBytes : String → Except Unit (List Nat)

def launchSignature (hashFn : List Nat → Int) (fs : CfgFs) (configPath : String)
    (videoPath : Option String) (playbackSpeed volume : Option ℚ) : LaunchSig :=
  let configHash : Option Int :=
    match fs.readBytes configPath with
    | Except.ok bs => some (hashFn bs)
    | Except.error _ => none
  { configPath := fs.resolveTo configPath,
    videoPath := videoPath,
    playbackSpeed := match playbackSpeed with | none => none | some x => some x,
    volume := match volume with | none => none | some x => some x,
    configHash := configHash }

def cfgFsSampleA : CfgFs :=
  { resolveTo := fun s => s, readBytes := fun _ => Except.ok [104, 105] }

def cfgFsSampleB : CfgFs :=
  { resolveTo := fun s => s, readBytes := fun _ => Except.ok [104, 105] }

/-! ## Theorems -/

/-! ## Process-table lemmas -/

theorem assocFind_map_killEntry (l : ProcTable) (pid q : Int) :
    assocFind (l.map (killEntry pid)) q
      = (assocFind l q).map (fun pr => if q = pid then { pr with alive := false } else pr) := by
  induction l with
  | nil => rfl
  | cons e es ih =>
    have hk : (killEntry pid e).1 = e.1 := by
      unfold killEntry; split <;> rfl
    simp only [List.map_cons, assocFind, hk]
    by_cases h2 : e.1 = q
    · by_cases h1 : e.1 = pid
      · have hqp : q = pid := by rw [← h2, h1]
        simp [killEntry, h1, h2, hqp]
      · have hqp : ¬ q = pid := by rw [← h2]; exact h1
        simp [killEntry, h1, h2, hqp]
    · simp [h2, ih]

theorem assocFind_setDeadT (t : ProcTable) (pid q : Int) :
    assocFind (setDeadT t pid) q
      = (assocFind t q).map (fun pr => if q = pid then { pr with alive := false } else pr) :=
  assocFind_map_killEntry t pid q

theorem assocFind_terminateT (t : ProcTable) (pid q : Int) :
    assocFind (terminateT t pid) q
      = (assocFind t q).map (fun pr => if q = pid then { pr with alive := false } else pr) := by
  unfold terminateT
  cases h : aliveIn t pid with
  | true => simp only [if_true]; exact assocFind_setDeadT t pid q
  | false =>
    simp only [Bool.false_eq_true, if_false]
    cases hq : assocFind t q with
    | none => rfl
    | some pr =>
      by_cases hqp : q = pid
      · subst hqp
        unfold aliveIn at h
        rw [hq] at h
        simp only [Option.elim] at h
        cases pr with
        | mk a m =>
          simp only at h
          subst h
          simp
      · simp [hqp]

theorem assocFind_killAllT (t : ProcTable) (ps : List Int) (q : Int) :
    assocFind (killAllT t ps) q
      = (assocFind t q).map (fun pr => if q ∈ ps then { pr with alive := false } else pr) := by
  induction ps generalizing t with
  | nil =>
    cases hq : assocFind t q <;> simp [killAllT, hq]
  | cons pid ps ih =>
    have hstep : killAllT t (pid :: ps) = killAllT (terminateT t pid) ps := rfl
    rw [hstep, ih, assocFind_terminateT]
    cases hq : assocFind t q with
    | none => rfl
    | some pr =>
      by_cases h1 : q = pid <;> by_cases h2 : q ∈ ps <;>
        simp [h1, h2]

theorem keys_map_killEntry (l : ProcTable) (pid : Int) :
    (l.map (killEntry pid)).map Prod.fst = l.map Prod.fst := by
  induction l with
  | nil => rfl
  | cons e es ih =>
    have hk : (killEntry pid e).1 = e.1 := by
      unfold killEntry; split <;> rfl
    simp only [List.map_cons, hk, ih]

theorem keys_terminateT (t : ProcTable) (pid : Int) :
    (terminateT t pid).map Prod.fst = t.map Prod.fst := by
  unfold terminateT setDeadT
  cases h : aliveIn t pid with
  | true => simp only [if_true]; exact keys_map_killEntry t pid
  | false => simp

theorem keys_killAllT (t : ProcTable) (ps : List Int) :
    (killAllT t ps).map Prod.fst = t.map Prod.fst := by
  induction ps generalizing t with
  | nil => rfl
  | cons pid ps ih =>
    have hstep : killAllT t (pid :: ps) = killAllT (terminateT t pid) ps := rfl
    rw [hstep, ih, keys_terminateT]

theorem mem_keys_of_assocFind (t : ProcTable) (q : Int) (pr : Proc)
    (h : assocFind t q = some pr) : q ∈ t.map Prod.fst := by
  induction t with
  | nil => simp [assocFind] at h
  | cons e es ih =>
    by_cases he : e.1 = q
    · simp [he]
    · simp only [assocFind, he, if_false] at h
      simp [ih h]

theorem liveDaemonIn_eq_and (t : ProcTable) (q : Int) :
    liveDaemonIn t q = (aliveIn t q && matchingIn t q) := by
  unfold liveDaemonIn aliveIn matchingIn
  cases assocFind t q <;> simp

theorem mem_activePidsT (t : ProcTable) (q : Int) :
    q ∈ activePidsT t ↔ liveDaemonIn t q = true := by
  unfold activePidsT
  rw [List.mem_filter]
  constructor
  · rintro ⟨-, h⟩; exact h
  · intro h
    refine ⟨?_, h⟩
    unfold liveDaemonIn at h
    cases hq : assocFind t q with
    | none => rw [hq] at h; simp at h
    | some pr => exact mem_keys_of_assocFind t q pr hq

theorem mem_keepSetOf (w : World) (keep : List Int) (q : Int) :
    q ∈ keepSetOf w keep ↔ q ∈ keep ∨ readPid w = some q := by
  unfold keepSetOf
  cases h : readPid w with
  | none => simp
  | some p =>
    simp only [List.mem_append, List.mem_singleton, Option.some.injEq]
    constructor
    · rintro (hk | hp)
      · exact Or.inl hk
      · exact Or.inr hp.symm
    · rintro (hk | hp)
      · exact Or.inl hk
      · exact Or.inr hp.symm

theorem mem_victimsOf (w : World) (keep : List Int) (q : Int) :
    q ∈ victimsOf w keep
      ↔ liveDaemonIn w.procs q = true ∧ ¬ q ∈ keepSetOf w keep := by
  unfold victimsOf
  rw [List.mem_filter, mem_activePidsT]
  simp

theorem aliveIn_killAllT (t : ProcTable) (ps : List Int) (q : Int) :
    aliveIn (killAllT t ps) q = (!(decide (q ∈ ps)) && aliveIn t q) := by
  unfold aliveIn
  rw [assocFind_killAllT]
  cases hq : assocFind t q with
  | none => simp
  | some pr => by_cases h : q ∈ ps <;> simp [h]

theorem matchingIn_killAllT (t : ProcTable) (ps : List Int) (q : Int) :
    matchingIn (killAllT t ps) q = matchingIn t q := by
  unfold matchingIn
  rw [assocFind_killAllT]
  cases hq : assocFind t q with
  | none => simp
  | some pr => by_cases h : q ∈ ps <;> simp [h]

theorem cleanupOrphans_pidFile (w : World) (keep : List Int) :
    (cleanupOrphans w keep).pidFile = w.pidFile := rfl

theorem cleanupOrphans_lastSig (w : World) (keep : List Int) :
    (cleanupOrphans w keep).lastSig = w.lastSig := rfl

theorem readPid_cleanupOrphans (w : World) (keep : List Int) :
    readPid (cleanupOrphans w keep) = readPid w := rfl

theorem assocFind_cleanupOrphans (w : World) (keep : List Int) (q : Int)
    (h : ¬ q ∈ victimsOf w keep) :
    assocFind (cleanupOrphans w keep).procs q = assocFind w.procs q := by
  unfold cleanupOrphans
  rw [assocFind_killAllT]
  cases hq : assocFind w.procs q <;> simp [h]

theorem aliveIn_cleanupOrphans (w : World) (keep : List Int) (q : Int) :
    aliveIn (cleanupOrphans w keep).procs q = true
      ↔ aliveIn w.procs q = true
          ∧ (matchingIn w.procs q = false ∨ q ∈ keep ∨ readPid w = some q) := by
  unfold cleanupOrphans
  rw [show ({ w with procs := killAllT w.procs (victimsOf w keep) } : World).procs
        = killAllT w.procs (victimsOf w keep) from rfl]
  rw [aliveIn_killAllT]
  simp only [Bool.and_eq_true, Bool.not_eq_eq_eq_not, Bool.not_true, decide_eq_false_iff_not,
    mem_victimsOf, mem_keepSetOf, liveDaemonIn_eq_and, Bool.and_eq_true]
  by_cases ha : aliveIn w.procs q = true <;>
    by_cases hm : matchingIn w.procs q = true <;>
      simp [ha, hm] <;> try tauto

theorem liveDaemonIn_cleanupOrphans (w : World) (keep : List Int) (q : Int) :
    liveDaemonIn (cleanupOrphans w keep).procs q = true
      ↔ liveDaemonIn w.procs q = true ∧ (q ∈ keep ∨ readPid w = some q) := by
  rw [show (cleanupOrphans w keep).procs = killAllT w.procs (victimsOf w keep) from rfl]
  rw [liveDaemonIn_eq_and, aliveIn_killAllT, matchingIn_killAllT, liveDaemonIn_eq_and]
  simp only [Bool.and_eq_true, Bool.not_eq_eq_eq_not, Bool.not_true, decide_eq_false_iff_not,
    mem_victimsOf, mem_keepSetOf, liveDaemonIn_eq_and, Bool.and_eq_true]
  by_cases ha : aliveIn w.procs q = true <;>
    by_cases hm : matchingIn w.procs q = true <;>
      simp [ha, hm] <;> try tauto

/-! ## Lifecycle facts used by the start/stop/reconcile claims -/

theorem readPid_setSig (w : World) (s : Option LaunchSig) :
    readPid { w with lastSig := s } = readPid w := rfl

theorem pidFile_isSome_of_readPid (w : World) (p : Int) (h : readPid w = some p) :
    w.pidFile.isSome = true := by
  unfold readPid at h
  cases hf : w.pidFile with
  | none => rw [hf] at h; simp at h
  | some s => simp

theorem victimsOf_eq_of (w1 w2 : World) (K : List Int)
    (hp : w1.procs = w2.procs) (hk : keepSetOf w1 K = keepSetOf w2 K) :
    victimsOf w1 K = victimsOf w2 K := by
  unfold victimsOf
  rw [hp, hk]

theorem keepSetOf_none (w : World) (K : List Int) (h : readPid w = none) :
    keepSetOf w K = K := by
  unfold keepSetOf
  rw [h]

theorem keepSetOf_some (w : World) (K : List Int) (p : Int) (h : readPid w = some p) :
    keepSetOf w K = K ++ [p] := by
  unfold keepSetOf
  rw [h]

theorem not_mem_victims_of_keep (w : World) (K : List Int) (p : Int)
    (h : readPid w = some p) : ¬ p ∈ victimsOf w K := by
  rw [mem_victimsOf, mem_keepSetOf]
  rintro ⟨-, hk⟩
  exact hk (Or.inr h)

/-- C1. Start idempotence (`start_daemon`, the signature-match branch): with
a running daemon recorded in the identity file and the same launch signature
remembered by this controller instance, a second `start_daemon` returns the
recorded pid with no restart — the returned state is exactly the initial
orphan sweep, the running daemon's table entry and the identity file are
untouched, no process is spawned, and exactly one live daemon-matching
process remains. -/
theorem start_idempotent (w : World) (sig : LaunchSig) (fresh p : Int)
    (hsig : w.lastSig = some sig)
    (hread : readPid w = some p)
    (halive : aliveIn w.procs p = true)
    (hmatch : matchingIn w.procs p = true) :
    startDaemonF 1 w sig fresh = some (cleanupOrphans w [], p)
    ∧ assocFind (cleanupOrphans w []).procs p = assocFind w.procs p
    ∧ (cleanupOrphans w []).pidFile = w.pidFile
    ∧ (cleanupOrphans w []).procs.map Prod.fst = w.procs.map Prod.fst
    ∧ (∀ q : Int, liveDaemonIn (cleanupOrphans w []).procs q = true ↔ q = p) := by
  have hfind := assocFind_cleanupOrphans w [] p (not_mem_victims_of_keep w [] p hread)
  have halive2 : aliveIn (cleanupOrphans w []).procs p = true := by
    unfold aliveIn
    rw [hfind]
    exact halive
  have hrun : daemonRunningB (cleanupOrphans w []) = true := by
    unfold daemonRunningB
    rw [readPid_cleanupOrphans, hread]
    exact halive2
  have hreadc : readPid (cleanupOrphans w []) = some p := by
    rw [readPid_cleanupOrphans, hread]
  have hsigc : (cleanupOrphans w []).lastSig = some sig := by
    rw [cleanupOrphans_lastSig, hsig]
  have hfileb : pidFileB (cleanupOrphans w []) = true := by
    unfold pidFileB
    rw [cleanupOrphans_pidFile]
    exact pidFile_isSome_of_readPid w p hread
  refine ⟨?_, hfind, cleanupOrphans_pidFile w [], keys_killAllT w.procs (victimsOf w []), ?_⟩
  · simp only [startDaemonF, hrun, if_true, hsigc, hfileb, and_self, hreadc]
  · intro q
    rw [liveDaemonIn_cleanupOrphans w [] q]
    constructor
    · rintro ⟨-, hq | hq⟩
      · simp at hq
      · rw [hread] at hq
        injection hq with hq
        exact hq.symm
    · intro hq
      subst hq
      refine ⟨?_, Or.inr hread⟩
      rw [liveDaemonIn_eq_and, halive, hmatch]
      rfl

/-- C2. Stop postcondition and idempotence (`stop_daemon`): the identity
file is always absent afterwards and the remembered launch signature is
forgotten; when no daemon is running the call raises nothing (it is a total
function whose OSError sites are caught) and changes the process table only
by the orphan-reaper sweep. -/
theorem stop_postcondition (w : World) :
    (stopDaemon w).pidFile = none
    ∧ (stopDaemon w).lastSig = none
    ∧ (daemonRunningB w = false →
        (stopDaemon w).procs = (cleanupOrphans w []).procs) := by
  refine ⟨?_, ?_, ?_⟩
  · cases h : readPid w <;>
      simp [stopDaemon, readPid_setSig, h, cleanupOrphans, terminatePidW]
  · cases h : readPid w <;>
      simp [stopDaemon, readPid_setSig, h, cleanupOrphans, terminatePidW]
  · intro hstop
    cases h : readPid w with
    | none =>
      simp only [stopDaemon, readPid_setSig, h]
      unfold cleanupOrphans
      simp only []
      have hv : victimsOf { w with lastSig := none, pidFile := none } []
          = victimsOf w [] := by
        apply victimsOf_eq_of
        · rfl
        · rw [keepSetOf_none { w with lastSig := none, pidFile := none } [] rfl,
            keepSetOf_none w [] h]
      rw [hv]
    | some p =>
      have hdead : aliveIn w.procs p = false := by
        unfold daemonRunningB at hstop
        rw [h] at hstop
        simpa using hstop
      simp only [stopDaemon, readPid_setSig, h]
      unfold cleanupOrphans terminatePidW terminateT
      simp only [hdead, Bool.false_eq_true, if_false]
      have hv : victimsOf { w with lastSig := none, procs := w.procs, pidFile := none } []
          = victimsOf w [] := by
        unfold victimsOf
        have h1 : keepSetOf { w with lastSig := none, procs := w.procs, pidFile := none } []
            = ([] : List Int) := by
          unfold keepSetOf readPid
          rfl
        have h2 : keepSetOf w [] = [p] := by
          unfold keepSetOf
          rw [h]
          rfl
        rw [h1, h2]
        apply List.filter_congr
        intro q hq
        have hqd : liveDaemonIn w.procs q = true := (mem_activePidsT w.procs q).mp hq
        have hqp : q ≠ p := by
          intro he
          subst he
          rw [liveDaemonIn_eq_and, hdead] at hqd
          simp at hqd
        simp [hqp]
      rw [hv]

/-- C3. Orphan reconciliation (`_cleanup_orphaned_daemons`): a process
survives the sweep exactly when it was alive and is not a daemon-matching
process outside both the keep-set and the recorded identity; in particular,
with two live daemon-matching processes and the identity file recording the
first, after a sweep exactly the recorded process is still alive among the
daemon-matching ones. -/
theorem cleanup_reconciles (w : World) (K : List Int) :
    (∀ q : Int,
       aliveIn (cleanupOrphans w K).procs q = true
         ↔ aliveIn w.procs q = true
             ∧ ¬(matchingIn w.procs q = true ∧ ¬ q ∈ K ∧ ¬ readPid w = some q))
    ∧ (∀ p1 p2 : Int,
        p1 ≠ p2 →
        liveDaemonIn w.procs p1 = true →
        liveDaemonIn w.procs p2 = true →
        readPid w = some p1 →
        (∀ q : Int, matchingIn w.procs q = true → q = p1 ∨ q = p2) →
        ∀ q : Int, matchingIn w.procs q = true →
          (aliveIn (cleanupOrphans w ([] : List Int)).procs q = true ↔ q = p1)) := by
  constructor
  · intro q
    rw [aliveIn_cleanupOrphans w K q]
    constructor
    · rintro ⟨ha, hrest⟩
      refine ⟨ha, ?_⟩
      rintro ⟨hm, hnk, hnr⟩
      rcases hrest with hm2 | hk | hr
      · rw [hm] at hm2; exact absurd hm2 (by simp)
      · exact hnk hk
      · exact hnr hr
    · rintro ⟨ha, hrest⟩
      refine ⟨ha, ?_⟩
      by_cases hm : matchingIn w.procs q = true
      · by_cases hk : q ∈ K
        · exact Or.inr (Or.inl hk)
        · by_cases hr : readPid w = some q
          · exact Or.inr (Or.inr hr)
          · exact absurd ⟨hm, hk, hr⟩ hrest
      · exact Or.inl (by simpa using hm)
  · intro p1 p2 hne h1 h2 hrec hscope q hq
    rw [aliveIn_cleanupOrphans w [] q]
    constructor
    · rintro ⟨ha, hrest⟩
      rcases hrest with hm | hk | hr
      · rw [hq] at hm; exact absurd hm (by simp)
      · simp at hk
      · rw [hrec] at hr
        injection hr with hr
        exact hr.symm
    · intro he
      subst he
      rw [liveDaemonIn_eq_and] at h1
      refine ⟨?_, Or.inr (Or.inr hrec)⟩
      exact (Bool.and_eq_true _ _).mp h1 |>.1

/-- C6. Identity read robustness (`read_pid` and `control.load_pid`): the two
readers agree, and an absent file, a read error, or non-numeric content each
yield `none` (the total embedding returns a value in every case, mirroring
the `except (OSError, ValueError)` handler that prevents any crash). -/
theorem read_pid_robust (w : World) :
    readPid w = loadPid w
    ∧ (w.pidFile = none → readPid w = none)
    ∧ (w.pidReadErr = true → readPid w = none)
    ∧ (∀ s, w.pidFile = some s → pyParseInt s = none → readPid w = none) := by
  refine ⟨rfl, ?_, ?_, ?_⟩
  · intro h
    unfold readPid
    rw [h]
  · intro h
    unfold readPid
    cases hf : w.pidFile with
    | none => rfl
    | some s => simp [h]
  · intro s hs hp
    unfold readPid
    rw [hs]
    by_cases he : w.pidReadErr = true <;> simp [he, hp]

theorem start_idempotent_witness :
    startDaemonF 1 wRun sigEx 99 = some (cleanupOrphans wRun [], 5)
    ∧ (cleanupOrphans wRun []).pidFile = wRun.pidFile
    ∧ (liveDaemonIn (cleanupOrphans wRun []).procs 7 = true ↔ (7 : Int) = 5) := by
  have h := start_idempotent wRun sigEx 99 5 (by decide) (by decide) (by decide) (by decide)
  exact ⟨h.1, h.2.2.1, h.2.2.2.2 7⟩

theorem stop_postcondition_witness :
    (stopDaemon wStale).pidFile = none
    ∧ (stopDaemon wStale).lastSig = none
    ∧ (stopDaemon wStale).procs = (cleanupOrphans wStale []).procs := by
  have h := stop_postcondition wStale
  exact ⟨h.1, h.2.1, h.2.2 (by decide)⟩

theorem wTwo_match_scope (q : Int) (hq : matchingIn wTwo.procs q = true) :
    q = 1 ∨ q = 2 := by
  by_cases h1 : (1 : Int) = q
  · exact Or.inl h1.symm
  · by_cases h2 : (2 : Int) = q
    · exact Or.inr h2.symm
    · exfalso
      simp only [wTwo, matchingIn, assocFind, h1, h2, if_false] at hq
      simp at hq

theorem cleanup_reconciles_witness :
    (aliveIn (cleanupOrphans wTwo ([] : List Int)).procs 1 = true ↔ (1 : Int) = 1)
    ∧ (aliveIn (cleanupOrphans wTwo ([] : List Int)).procs 2 = true ↔ (2 : Int) = 1) := by
  have h := cleanup_reconciles wTwo []
  exact ⟨h.2 1 2 (by decide) (by decide) (by decide) (by decide) wTwo_match_scope 1 (by decide),
         h.2 1 2 (by decide) (by decide) (by decide) (by decide) wTwo_match_scope 2 (by decide)⟩

theorem read_pid_robust_witness :
    readPid wCorrupt = loadPid wCorrupt ∧ readPid wCorrupt = none := by
  have h := read_pid_robust wCorrupt
  exact ⟨h.1, h.2.2.2 "garbage" rfl (by decide)⟩

theorem pollUntilDead_iff (b : TermBehavior) (n k : Nat) :
    pollUntilDead b n k = true ↔ ∃ j, j < n ∧ probeDead b (k + j) = true := by
  induction n generalizing k with
  | zero => simp [pollUntilDead]
  | succ n ih =>
    simp only [pollUntilDead]
    by_cases h : probeDead b k = true
    · simp only [h, if_true, true_iff]
      exact ⟨0, Nat.succ_pos n, by simpa using h⟩
    · rw [if_neg (by simpa using h), ih]
      constructor
      · rintro ⟨j, hj, hp⟩
        exact ⟨j + 1, by omega, by rwa [show k + (j + 1) = k + 1 + j by omega]⟩
      · rintro ⟨j, hj, hp⟩
        cases j with
        | zero => rw [Nat.add_zero] at hp; exact absurd hp h
        | succ j => exact ⟨j, by omega, by rwa [show k + 1 + j = k + (j + 1) by omega]⟩

theorem pollUntilDead_zero_iff (b : TermBehavior) (n : Nat) :
    pollUntilDead b n 0 = true ↔ ∃ d, b.diesAfter = some d ∧ d < n := by
  rw [pollUntilDead_iff]
  constructor
  · rintro ⟨j, hj, hp⟩
    unfold probeDead at hp
    cases hd : b.diesAfter with
    | none => rw [hd] at hp; simp at hp
    | some d =>
      rw [hd] at hp
      simp only [decide_eq_true_eq] at hp
      exact ⟨d, rfl, by omega⟩
  · rintro ⟨d, hd, hdn⟩
    refine ⟨d, hdn, ?_⟩
    unfold probeDead
    rw [hd]
    simp

/-- C4 (counterexample). The claim says polling stops when the given
timeout elapses and SIGKILL is sent on that timeout, but
`_terminate_pid` sets `deadline = time.time() + max(timeout, 0.2)`
(daemon_manager.py line 92): at `timeout = 0` — where the claim's budget
allows no probe at all, so the claimed sequencer sends SIGTERM then SIGKILL
immediately — the code keeps polling through the 0.2 s floor, a process
dying at the second probe is seen dead, and no SIGKILL is ever sent. -/
theorem terminate_sequencer_counterexample :
    terminatePidSignalsClaimed { aliveAtStart := true, diesAfter := some 1 } 0
      = [PosixSignal.sigterm, PosixSignal.sigkill]
    ∧ terminatePidSignals { aliveAtStart := true, diesAfter := some 1 } 0
      = [PosixSignal.sigterm]
    ∧ pollsForClaimed 0 = 0
    ∧ pollsFor 0 = 4 := by
  have hclaimed : pollsForClaimed 0 = 0 := by
    rw [pollsForClaimed]
    norm_num
  have hcode : pollsFor 0 = 4 := by
    rw [pollsFor]
    norm_num
  refine ⟨?_, ?_, hclaimed, hcode⟩
  · rw [terminatePidSignalsClaimed, hclaimed]
    rfl
  · rw [terminatePidSignals, hcode]
    rfl

/-- C4 (amended). Termination sequencer over the clamped budget
`max(timeout, 0.2)`: a process already gone when SIGTERM is sent gets no
signal and the call succeeds immediately; a live process that a
50 ms-interval probe sees dead before the `max(timeout, 0.2)` deadline gets
only SIGTERM; a live process that survives every probe before that deadline
gets SIGTERM then SIGKILL and nothing more; and the clamped deadline always
allows at least 4 probes (the 0.2 s floor).  Both `os.kill` sites catch
`OSError`, so the embedding is a total function — no input raises. -/
theorem terminate_sequencer (b : TermBehavior) (timeout : ℚ) :
    (b.aliveAtStart = false → terminatePidSignals b timeout = [])
    ∧ (b.aliveAtStart = true →
        ((∃ d, b.diesAfter = some d ∧ d < pollsFor timeout) →
            terminatePidSignals b timeout = [PosixSignal.sigterm])
        ∧ ((∀ d, b.diesAfter = some d → pollsFor timeout ≤ d) →
            terminatePidSignals b timeout
              = [PosixSignal.sigterm, PosixSignal.sigkill]))
    ∧ 4 ≤ pollsFor timeout := by
  refine ⟨?_, ?_, ?_⟩
  · intro h
    unfold terminatePidSignals
    rw [h]
    simp
  · intro h
    constructor
    · intro hdies
      unfold terminatePidSignals
      rw [h]
      have hp : pollUntilDead b (pollsFor timeout) 0 = true :=
        (pollUntilDead_zero_iff b (pollsFor timeout)).mpr hdies
      simp [hp]
    · intro hsurv
      unfold terminatePidSignals
      rw [h]
      have hp : pollUntilDead b (pollsFor timeout) 0 = false := by
        by_contra hc
        rw [Bool.not_eq_false, pollUntilDead_zero_iff] at hc
        obtain ⟨d, hd, hdn⟩ := hc
        exact absurd hdn (by have := hsurv d hd; omega)
      simp [hp]
  · have h1 : (4 : ℚ) ≤ max timeout (1/5) * 20 := by
      have h2 : (1/5 : ℚ) ≤ max timeout (1/5) := le_max_right _ _
      nlinarith
    calc (4 : Nat) = Nat.ceil (4 : ℚ) := by simp
    _ ≤ pollsFor timeout := Nat.ceil_mono h1

theorem terminate_sequencer_witness :
    terminatePidSignals { aliveAtStart := false, diesAfter := none } 1 = []
    ∧ terminatePidSignals { aliveAtStart := true, diesAfter := some 2 } 1
        = [PosixSignal.sigterm]
    ∧ terminatePidSignals { aliveAtStart := true, diesAfter := none } 1
        = [PosixSignal.sigterm, PosixSignal.sigkill] := by
  refine ⟨(terminate_sequencer _ 1).1 rfl, ?_, ?_⟩
  · exact ((terminate_sequencer { aliveAtStart := true, diesAfter := some 2 } 1).2.1 rfl).1
      ⟨2, rfl, by norm_num [pollsFor]⟩
  · exact ((terminate_sequencer { aliveAtStart := true, diesAfter := none } 1).2.1 rfl).2
      (by intro d hd; exact absurd hd (by simp))

/-- C5 (counterexample). The identity write is not atomic: while
`_write_pid 456` replaces previous content "123", a concurrent reader can
observe the truncated file — a state that is neither the previous record
nor the new one, i.e. a partially written identity file. -/
theorem write_pid_truncation_observable :
    some "" ∈ writePidStates (some "123") 456
    ∧ some "" ≠ some "123"
    ∧ some "" ≠ some (toString (456 : Int)) := by decide

/-- C5 (amended). `_write_pid` rewrites the identity file in place by
truncate-then-write: every observable state is the previous content, the
truncated empty file, or the whole new record; the final state is the whole
new record; and the truncated intermediate reads as `none` ("not running"),
never as a wrong pid. -/
theorem write_pid_states (old : Option String) (pid : Int) :
    (∀ st ∈ writePidStates old pid,
        st = old ∨ st = some "" ∨ st = some (toString pid))
    ∧ (writePidStates old pid).getLast? = some (some (toString pid))
    ∧ readPidContent (some "") = none := by
  refine ⟨?_, rfl, by decide⟩
  intro st hst
  simp only [writePidStates, writeTextStates, List.mem_cons, List.mem_singleton,
    List.not_mem_nil, or_false] at hst
  rcases hst with h | h | h
  · exact Or.inl h
  · exact Or.inr (Or.inl h)
  · exact Or.inr (Or.inr h)

theorem lookupD_append (a b : Doc) (k : String) :
    lookupD (a ++ b) k
      = match lookupD a k with
        | some v => some v
        | none => lookupD b k := by
  induction a with
  | nil => rfl
  | cons kv kvs ih =>
    by_cases h : kv.1 = k <;> simp [lookupD, h, ih]

theorem lookupD_mapOverride (d1 d2 : Doc) (k : String) :
    lookupD (d1.map (fun kv => (kv.1, (lookupD d2 kv.1).getD kv.2))) k
      = (lookupD d1 k).map (fun v => (lookupD d2 k).getD v) := by
  induction d1 with
  | nil => rfl
  | cons kv kvs ih =>
    by_cases h : kv.1 = k
    · subst h
      simp [lookupD]
    · simp [lookupD, h, ih]

theorem lookupD_filterKey (d : Doc) (pb : String → Bool) (k : String) :
    lookupD (d.filter (fun kv => pb kv.1)) k
      = if pb k = true then lookupD d k else none := by
  induction d with
  | nil => simp [lookupD]
  | cons kv kvs ih =>
    by_cases hp : pb kv.1 = true <;> by_cases hk : kv.1 = k
    · subst hk
      simp [lookupD, hp, List.filter_cons, ih]
    · simp [lookupD, hp, hk, List.filter_cons, ih]
    · subst hk
      simp [lookupD, hp, List.filter_cons, ih]
    · simp [lookupD, hp, hk, List.filter_cons, ih]

theorem lookupD_mergeDicts (d1 d2 : Doc) (k : String) :
    lookupD (mergeDicts d1 d2) k
      = match lookupD d1 k with
        | some v1 => some ((lookupD d2 k).getD v1)
        | none => lookupD d2 k := by
  unfold mergeDicts
  rw [lookupD_append, lookupD_mapOverride,
    lookupD_filterKey d2 (fun s => !containsKey d1 s) k]
  cases h1 : lookupD d1 k with
  | some v1 => simp
  | none => simp [containsKey, h1]

/-- C9 (counterexample). A key outside the documented config keys is not
ignored by `load_config`: it appears in the result with its stored value,
because `{**DEFAULT_CONFIG, **data}` keeps every key of `data`. -/
theorem load_config_keeps_unknown_key :
    lookupD (loadConfigMerge [("shimmer", JVal.b true)]) "shimmer"
      = some (JVal.b true) := by decide

/-- C9 (amended). `load_config` fills every missing documented key with its
default (`""`, `1.0`, `0.0`, `false`) and passes through every key present
in the stored document — including unknown keys, which are retained rather
than dropped. -/
theorem load_config_defaults (data : Doc) :
    (lookupD data "video_path" = none →
        lookupD (loadConfigMerge data) "video_path" = some (JVal.s ""))
    ∧ (lookupD data "playback_speed" = none →
        lookupD (loadConfigMerge data) "playback_speed" = some (JVal.num 1))
    ∧ (lookupD data "volume" = none →
        lookupD (loadConfigMerge data) "volume" = some (JVal.num 0))
    ∧ (lookupD data "autostart" = none →
        lookupD (loadConfigMerge data) "autostart" = some (JVal.b false))
    ∧ (∀ k v, lookupD data k = some v → lookupD (loadConfigMerge data) k = some v) := by
  refine ⟨?_, ?_, ?_, ?_, ?_⟩
  · intro h
    rw [loadConfigMerge, lookupD_mergeDicts, h]
    rfl
  · intro h
    rw [loadConfigMerge, lookupD_mergeDicts, h]
    rfl
  · intro h
    rw [loadConfigMerge, lookupD_mergeDicts, h]
    rfl
  · intro h
    rw [loadConfigMerge, lookupD_mergeDicts, h]
    rfl
  · intro k v h
    rw [loadConfigMerge, lookupD_mergeDicts, h]
    cases hd : lookupD defaultConfig k <;> simp

theorem load_config_defaults_witness :
    lookupD (loadConfigMerge [("volume", JVal.num 3)]) "video_path"
      = some (JVal.s "")
    ∧ lookupD (loadConfigMerge [("volume", JVal.num 3)]) "volume"
      = some (JVal.num 3) := by
  have h := load_config_defaults [("volume", JVal.num 3)]
  exact ⟨h.1 (by decide), h.2.2.2.2 "volume" (JVal.num 3) (by decide)⟩

theorem write_pid_states_witness :
    (some "" = some "123" ∨ some "" = some ""
      ∨ some "" = some (toString (456 : Int)))
    ∧ (writePidStates (some "123") 456).getLast? = some (some (toString (456 : Int))) := by
  have h := write_pid_states (some "123") 456
  exact ⟨h.1 (some "") (by decide), h.2.1⟩

theorem lookupD_map_replace (d : Doc) (k : String) (v : JVal)
    (hc : containsKey d k = true) :
    lookupD (d.map (fun kv => if kv.1 = k then (k, v) else kv)) k = some v := by
  induction d with
  | nil => simp [containsKey, lookupD] at hc
  | cons kv kvs ih =>
    by_cases h : kv.1 = k
    · simp [lookupD, h]
    · have hc2 : containsKey kvs k = true := by
        simpa [containsKey, lookupD, h] using hc
      simp [lookupD, h, ih hc2]

theorem lookupD_map_replace_ne (d : Doc) (k k2 : String) (v : JVal)
    (h : k2 ≠ k) :
    lookupD (d.map (fun kv => if kv.1 = k then (k, v) else kv)) k2
      = lookupD d k2 := by
  induction d with
  | nil => rfl
  | cons kv kvs ih =>
    by_cases hk : kv.1 = k
    · have hne : ¬ (k = k2) := fun he => h he.symm
      simp [lookupD, hk, hne, ih]
    · by_cases h2 : kv.1 = k2 <;> simp [lookupD, hk, h2, ih, h]

theorem lookupD_setKey_self (d : Doc) (k : String) (v : JVal) :
    lookupD (setKey d k v) k = some v := by
  unfold setKey
  by_cases hc : containsKey d k = true
  · rw [if_pos hc]
    exact lookupD_map_replace d k v hc
  · have hn : lookupD d k = none := by
      unfold containsKey at hc
      cases h : lookupD d k with
      | none => rfl
      | some x => rw [h] at hc; simp at hc
    rw [if_neg hc, lookupD_append, hn]
    simp [lookupD]

theorem lookupD_setKey_ne (d : Doc) (k k2 : String) (v : JVal) (h : k2 ≠ k) :
    lookupD (setKey d k v) k2 = lookupD d k2 := by
  unfold setKey
  by_cases hc : containsKey d k = true
  · rw [if_pos hc]
    exact lookupD_map_replace_ne d k k2 v h
  · rw [if_neg hc, lookupD_append]
    cases h2 : lookupD d k2 with
    | some x => rfl
    | none =>
      have hne : ¬ (k = k2) := fun he => h he.symm
      simp [lookupD, hne]

theorem validateVideo_ok (fs : CtlFs) (p rp : String)
    (h : validateVideo fs p = Except.ok rp) :
    rp = fs.resolvePath p
    ∧ fs.fileAt (fs.resolvePath p) = true
    ∧ fs.regularAt (fs.resolvePath p) = true := by
  unfold validateVideo at h
  by_cases h1 : fs.fileAt (fs.resolvePath p) = false
  · rw [if_pos h1] at h
    exact Except.noConfusion h
  · rw [if_neg h1] at h
    by_cases h2 : fs.regularAt (fs.resolvePath p) = false
    · rw [if_pos h2] at h
      exact Except.noConfusion h
    · rw [if_neg h2] at h
      injection h with h
      exact ⟨h.symm, by simpa using h1, by simpa using h2⟩

/-- C7 (counterexample).  `start` with no `--video` override launches the
daemon for a stored `video_path` that does not resolve to any existing
file: the existence invariant is not re-checked on this path — only
non-emptiness is — so the launcher is reached with a dangling path and no
`ConfigurationError` is raised. -/
theorem start_launches_unvalidated_stored_path :
    commandStart fsEmpty [("video_path", JVal.s "/gone.mp4")]
        { video := none, speed := none }
      = Except.ok { videoPath := JVal.s "/gone.mp4",
                    playbackSpeed := JVal.num 1, volume := JVal.num 0 }
    ∧ fsEmpty.fileAt (fsEmpty.resolvePath "/gone.mp4") = false := by
  constructor
  · rfl
  · rfl

/-- C7 (amended).  When the start command is given a non-empty `--video`
override, the override is validated before any launch: the launcher is reached only if
the resolved path names an existing regular file, the launch uses exactly
that resolved path, and a validation failure aborts the command with the
configuration error (no launch).  A `video_path` taken from the stored
config is checked only for falsiness, never for existence. -/
theorem start_validates_override (fs : CtlFs) (stored : Doc) (args : StartArgs)
    (v : String) (hv : args.video = some v) (hvne : v ≠ "") :
    (∀ req, commandStart fs stored args = Except.ok req →
        fs.fileAt (fs.resolvePath v) = true
        ∧ fs.regularAt (fs.resolvePath v) = true
        ∧ req.videoPath = JVal.s (fs.resolvePath v)
        ∧ isFalsy req.videoPath = false)
    ∧ (∀ e, validateVideo fs v = Except.error e →
        commandStart fs stored args = Except.error e) := by
  cases hval : validateVideo fs v with
  | error e0 =>
    have hcmd : commandStart fs stored args = Except.error e0 := by
      simp only [commandStart, hv, if_neg hvne, hval]
    constructor
    · intro req hok
      rw [hcmd] at hok
      exact Except.noConfusion hok
    · intro e he
      injection he with he
      rw [hcmd, he]
  | ok rp =>
    obtain ⟨hrp, hex, hreg⟩ := validateVideo_ok fs v rp hval
    subst hrp
    constructor
    · intro req hok
      cases hs : args.speed with
      | some sp =>
        simp only [commandStart, hv, if_neg hvne, hval, hs] at hok
        rw [lookupD_setKey_ne _ _ _ _ (by decide), lookupD_setKey_self] at hok
        simp only [Option.getD_some] at hok
        by_cases hf : isFalsy (JVal.s (fs.resolvePath v)) = true
        · rw [if_pos hf] at hok
          exact Except.noConfusion hok
        · rw [if_neg hf] at hok
          injection hok with hok
          subst hok
          exact ⟨hex, hreg, rfl, by simpa using hf⟩
      | none =>
        simp only [commandStart, hv, if_neg hvne, hval, hs] at hok
        rw [lookupD_setKey_self] at hok
        simp only [Option.getD_some] at hok
        by_cases hf : isFalsy (JVal.s (fs.resolvePath v)) = true
        · rw [if_pos hf] at hok
          exact Except.noConfusion hok
        · rw [if_neg hf] at hok
          injection hok with hok
          subst hok
          exact ⟨hex, hreg, rfl, by simpa using hf⟩
    · intro e he
      exact Except.noConfusion he

theorem start_validates_override_witness :
    fsOne.fileAt (fsOne.resolvePath "/a.mp4") = true
    ∧ (commandStart fsOne [] { video := some "/a.mp4", speed := none }).isOk = true := by
  have h := start_validates_override fsOne [] { video := some "/a.mp4", speed := none }
    "/a.mp4" rfl (by decide)
  have hok : commandStart fsOne [] { video := some "/a.mp4", speed := none }
      = Except.ok { videoPath := JVal.s "/a.mp4",
                    playbackSpeed := JVal.num 1, volume := JVal.num 0 } := rfl
  exact ⟨(h.1 _ hok).1, by rw [hok]; rfl⟩

theorem launchctlRun_ignore (res : CmdResult) :
    launchctlRun res true = Except.ok (decide (res.returncode = 0)) := by
  unfold launchctlRun
  by_cases h : res.returncode = 0
  · simp [h]
  · simp [h]

/-- C8. Autostart enable: the descriptor is written atomically — every
observable content of the target path is the old descriptor or the whole
new one, the final content is the new one — with the documented argument
list, run-at-load true, keep-alive false and both output streams redirected
to the log; the unload (errors swallowed) precedes the load (errors
surfaced), and the call raises exactly when the service-manager load
fails, with the load's error message. -/
theorem enable_autostart_spec (env : DmEnv) (cfgPath plistPath : String)
    (old : Option LaunchAgentPlist) (uRes lRes : CmdResult) :
    ((enableAutostart env cfgPath plistPath old uRes lRes).result = Except.ok ()
        ↔ lRes.returncode = 0)
    ∧ (lRes.returncode ≠ 0 →
        (enableAutostart env cfgPath plistPath old uRes lRes).result
          = Except.error (launchctlMessage lRes))
    ∧ (enableAutostart env cfgPath plistPath old uRes lRes).calls
        = [(["unload", plistPath], true), (["load", "-w", plistPath], false)]
    ∧ (∀ st ∈ (enableAutostart env cfgPath plistPath old uRes lRes).targetStates,
        st = old ∨ st = some (buildLaunchAgentPlist env cfgPath))
    ∧ (enableAutostart env cfgPath plistPath old uRes lRes).targetStates.getLast?
        = some (some (buildLaunchAgentPlist env cfgPath))
    ∧ (buildLaunchAgentPlist env cfgPath).programArguments
        = [env.pythonExe, env.daemonScript, "--config", cfgPath, "run"]
    ∧ (buildLaunchAgentPlist env cfgPath).runAtLoad = true
    ∧ (buildLaunchAgentPlist env cfgPath).keepAlive = false
    ∧ (buildLaunchAgentPlist env cfgPath).standardOutPath = env.logPath
    ∧ (buildLaunchAgentPlist env cfgPath).standardErrPath = env.logPath := by
  have hload : ∀ b : Bool,
      enableAutostart env cfgPath plistPath old uRes lRes
        = (match launchctlRun lRes false with
           | Except.error e =>
             { targetStates := [old, old, some (buildLaunchAgentPlist env cfgPath)],
               calls := [(["unload", plistPath], true),
                         (["load", "-w", plistPath], false)],
               result := Except.error e }
           | Except.ok _ =>
             { targetStates := [old, old, some (buildLaunchAgentPlist env cfgPath)],
               calls := [(["unload", plistPath], true),
                         (["load", "-w", plistPath], false)],
               result := Except.ok () }) := by
    intro b
    simp only [enableAutostart, launchctlRun_ignore]
  refine ⟨?_, ?_, ?_, ?_, ?_, rfl, rfl, rfl, rfl, rfl⟩
  · by_cases hl : lRes.returncode = 0
    · rw [hload true]
      have : launchctlRun lRes false = Except.ok true := by
        unfold launchctlRun
        simp [hl]
      rw [this]
      simp [hl]
    · rw [hload true]
      have : launchctlRun lRes false = Except.error (launchctlMessage lRes) := by
        unfold launchctlRun
        simp [hl]
      rw [this]
      simp [hl]
  · intro hl
    rw [hload true]
    have : launchctlRun lRes false = Except.error (launchctlMessage lRes) := by
      unfold launchctlRun
      simp [hl]
    rw [this]
  · rw [hload true]
    cases launchctlRun lRes false <;> rfl
  · rw [hload true]
    cases launchctlRun lRes false with
    | error e =>
      intro st hst
      simp only [List.mem_cons, List.not_mem_nil, or_false] at hst
      rcases hst with h | h | h
      · exact Or.inl h
      · exact Or.inl h
      · exact Or.inr h
    | ok b =>
      intro st hst
      simp only [List.mem_cons, List.not_mem_nil, or_false] at hst
      rcases hst with h | h | h
      · exact Or.inl h
      · exact Or.inl h
      · exact Or.inr h
  · rw [hload true]
    cases launchctlRun lRes false <;> rfl

theorem enable_autostart_spec_witness :
    ((enableAutostart
        { pythonExe := "/usr/bin/python3", daemonScript := "/app/wallpaper_daemon.py",
          logPath := "/tmp/daemon.log", appId := "com.example.videowallpaper" }
        "/tmp/config.json" "/tmp/agent.plist" none
        { returncode := 1, stdoutText := "", stderrText := "not loaded" }
        { returncode := 0, stdoutText := "", stderrText := "" }).result
      = Except.ok () ↔ (0 : Int) = 0)
    ∧ (none = (none : Option LaunchAgentPlist)
        ∨ none = some (buildLaunchAgentPlist
            { pythonExe := "/usr/bin/python3", daemonScript := "/app/wallpaper_daemon.py",
              logPath := "/tmp/daemon.log", appId := "com.example.videowallpaper" }
            "/tmp/config.json")) := by
  have h := enable_autostart_spec
    { pythonExe := "/usr/bin/python3", daemonScript := "/app/wallpaper_daemon.py",
      logPath := "/tmp/daemon.log", appId := "com.example.videowallpaper" }
    "/tmp/config.json" "/tmp/agent.plist" none
    { returncode := 1, stdoutText := "", stderrText := "not loaded" }
    { returncode := 0, stdoutText := "", stderrText := "" }
  exact ⟨h.1, h.2.2.2.1 none (by simp [enableAutostart, launchctlRun, launchctlMessage])⟩

/-- C10. Launch-signature determinism: within one control process (one
`hashFn`), the signature is a function of the resolved config path, the
config file's bytes (or its read error) and the override values alone —
two computations over filesystem views that agree on the config path yield
equal signatures. -/
theorem launch_signature_deterministic (hashFn : List Nat → Int) (fs1 fs2 : CfgFs)
    (p : String) (v : Option String) (sp vol : Option ℚ)
    (hres : fs1.resolveTo p = fs2.resolveTo p)
    (hread : fs1.readBytes p = fs2.readBytes p) :
    launchSignature hashFn fs1 p v sp vol = launchSignature hashFn fs2 p v sp vol := by
  unfold launchSignature
  rw [hres, hread]

theorem launch_signature_deterministic_witness :
    launchSignature (fun bs => bs.foldl (fun a n => a + (n : Int)) 0) cfgFsSampleA
        "/tmp/config.json" (some "/tmp/a.mp4") (some 1) (some 0)
      = launchSignature (fun bs => bs.foldl (fun a n => a + (n : Int)) 0) cfgFsSampleB
        "/tmp/config.json" (some "/tmp/a.mp4") (some 1) (some 0) :=
  launch_signature_deterministic (fun bs => bs.foldl (fun a n => a + (n : Int)) 0)
    cfgFsSampleA cfgFsSampleB "/tmp/config.json" (some "/tmp/a.mp4") (some 1) (some 0)
    rfl rfl

end AuraFlow
